import Mathlib

/-!
Shallow embedding of the SIL dataflow-diagnostics pass
(lib/SILPasses/DataflowDiagnostics.cpp) and proofs about it.

The pass walks a SIL module and, per instruction, runs two classifiers:
one for unreachable instructions (missing return / non-exhaustive switch)
and one for branch/return terminators inside never-returning functions.
Diagnostics are appended to the diagnostic engine, modelled here as an
explicit list accumulator.
-/

namespace DataflowDiagnostics

/-- A source position (SourceLoc in the compiler), abstracted to a number. -/
abbrev SourceLoc := Nat

/-- Result of a declared-result-type query (swift Type), with the one
observation the pass makes on it: isVoid. -/
inductive Ty where
  | void
  | named (id : Nat)
deriving DecidableEq, Repr

/-- Mirrors Type::isVoid. -/
def Ty.isVoid : Ty → Bool
  | .void => true
  | _ => false

/-- The slice of AnyFunctionType the pass reads: the noreturn marker. -/
structure AnyFunctionType where
  noReturn : Bool
deriving DecidableEq, Repr

/-- The slice of FuncDecl the pass reads: getResultType and the function
type obtained through getFuncExpr()->getType()->castTo<AnyFunctionType>().
The cast asserts on failure in the source, so the type is always present. -/
structure FuncDecl where
  resultType : Ty
  funcType : AnyFunctionType
deriving DecidableEq, Repr

/-- Provenance tag of a SILLocation: which syntactic construct produced
this IR point. A location tagging an AbstractFunctionDecl resolves to a
FuncDecl via getAsASTNode<FuncDecl> only when the declaration really is a
FuncDecl; the optional payload records that resolution. ReturnLocation and
ImplicitReturnLocation are the location kinds tested by is<...>. -/
inductive Provenance where
  | funcDecl (fd : Option FuncDecl)
  | switchStmt
  | explicitReturn
  | implicitReturn
  | other
deriving DecidableEq, Repr

/-- Mirrors SILLocation::isASTNode<AbstractFunctionDecl>. -/
def Provenance.isAbstractFunctionDecl : Provenance → Bool
  | .funcDecl _ => true
  | _ => false

/-- A present SILLocation: a source span with start and end positions
(getSourceLoc / getEndSourceLoc) and one provenance tag. -/
structure SILLocation where
  startLoc : SourceLoc
  endLoc : SourceLoc
  prov : Provenance
deriving DecidableEq, Repr

/-- Mirrors SILLocation::getAsASTNode<FuncDecl> applied to an optional
location (an absent location resolves to nothing). -/
def getAsFuncDecl : Option SILLocation → Option FuncDecl
  | some L =>
    match L.prov with
    | .funcDecl o => o
    | _ => none
  | none => none

/-- Instruction kinds the pass distinguishes: UnreachableInst,
BranchInst, ReturnInst, and an open category of every other instruction
(terminator or not), which the pass ignores. -/
inductive InstKind where
  | unreachable
  | branch
  | ret
  | other (tag : Nat)
deriving DecidableEq, Repr

/-- Mirrors dyn_cast<TermInst> followed by isa<BranchInst> || isa<ReturnInst>. -/
def isReturnOrBranch : InstKind → Bool
  | .branch => true
  | .ret => true
  | _ => false

/-- A SIL instruction: its kind and its optional location. An absent
location models hasASTLocation() returning false (the instruction was
synthesized by a later pass such as DCE). -/
structure SILInstruction where
  kind : InstKind
  loc : Option SILLocation
deriving DecidableEq, Repr

/-- A SIL basic block: an ordered list of instructions. -/
structure SILBasicBlock where
  instructions : List SILInstruction
deriving DecidableEq, Repr

/-- A SIL function: its own location (F->getLocation()) and its blocks.
The parent back-references of the C++ object graph are replaced by the
traversal passing the enclosing function explicitly. -/
structure SILFunction where
  location : Option SILLocation
  blocks : List SILBasicBlock
deriving DecidableEq, Repr

/-- A SIL module: an ordered list of functions. -/
structure SILModule where
  functions : List SILFunction
deriving DecidableEq, Repr

/-- A diagnostic record handed to the diagnostic engine: the kind of the
diag:: id, the position it points at, and its arguments. -/
inductive Diagnostic where
  | missingReturn (loc : SourceLoc) (resultType : Ty)
  | nonExhaustiveSwitch (loc : SourceLoc)
  | returnFromNoReturn (loc : SourceLoc)
deriving DecidableEq, Repr

/-- Tests whether a diagnostic is a missing_return record. -/
def Diagnostic.isMissingReturn : Diagnostic → Bool
  | .missingReturn _ _ => true
  | _ => false

/-- Tests whether a diagnostic is a non_exhaustive_switch record. -/
def Diagnostic.isNonExhaustiveSwitch : Diagnostic → Bool
  | .nonExhaustiveSwitch _ => true
  | _ => false

/-- Tests whether a diagnostic is a return_from_noreturn record. -/
def Diagnostic.isReturnFromNoReturn : Diagnostic → Bool
  | .returnFromNoReturn _ => true
  | _ => false

/-- Embeds diagnoseMissingReturn: resolve the enclosing function's own
location to a FuncDecl (else branch of the source: closures without the
result-type getter are skipped); suppress when the declared result type
is void or the function type is noreturn; otherwise emit missing_return
with the declared result type at the end position of the instruction's
location. The source asserts the instruction's location is present here;
its caller has already checked it, and the none branch is unreachable on
that path. -/
def diagnoseMissingReturn (F : SILFunction) (UI : SILInstruction) :
    List Diagnostic :=
  match getAsFuncDecl F.location with
  | some FD =>
    if FD.resultType.isVoid then []
    else if FD.funcType.noReturn then []
    else
      match UI.loc with
      | some L => [Diagnostic.missingReturn L.endLoc FD.resultType]
      | none => []
  | none => []

/-- Embeds diagnoseNonExhaustiveSwitch: emit non_exhaustive_switch at the
end position of the instruction's location. The source asserts the
location is present; the caller has already checked it. -/
def diagnoseNonExhaustiveSwitch (UI : SILInstruction) : List Diagnostic :=
  match UI.loc with
  | some L => [Diagnostic.nonExhaustiveSwitch L.endLoc]
  | none => []

/-- Embeds diagnoseUnreachable: only unreachable instructions are
considered; an absent location is skipped; a location tagging an
AbstractFunctionDecl dispatches to the missing-return path, a location
tagging a SwitchStmt to the non-exhaustive-switch path, anything else is
ignored. -/
def diagnoseUnreachable (F : SILFunction) (I : SILInstruction) :
    List Diagnostic :=
  match I.kind with
  | .unreachable =>
    match I.loc with
    | none => []
    | some L =>
      if L.prov.isAbstractFunctionDecl then diagnoseMissingReturn F I
      else if L.prov = Provenance.switchStmt then
        diagnoseNonExhaustiveSwitch I
      else []
  | _ => []

/-- Embeds diagnoseReturn: only Branch and Return terminators are
considered; the enclosing function's own location must resolve to a
FuncDecl whose function type is noreturn; then a location of kind
ReturnLocation, and likewise one of kind ImplicitReturnLocation, emits
return_from_noreturn at the location's start position (the source uses
two independent if statements, embedded as an append). -/
def diagnoseReturn (F : SILFunction) (I : SILInstruction) :
    List Diagnostic :=
  if isReturnOrBranch I.kind then
    match getAsFuncDecl F.location with
    | some FD =>
      if FD.funcType.noReturn then
        match I.loc with
        | some L =>
          (if L.prov = Provenance.explicitReturn then
            [Diagnostic.returnFromNoReturn L.startLoc]
          else []) ++
          (if L.prov = Provenance.implicitReturn then
            [Diagnostic.returnFromNoReturn L.startLoc]
          else [])
        | none => []
      else []
    | none => []
  else []

/-- Embeds emitSILDataflowDiagnostics: the nested module/function/block/
instruction loops, threading the diagnostic engine's state (the list of
already-recorded diagnostics) through the traversal; each instruction is
handed first to diagnoseUnreachable and then to diagnoseReturn. -/
def emitSILDataflowDiagnostics (M : SILModule) (sink : List Diagnostic) :
    List Diagnostic :=
  M.functions.foldl
    (fun s Fn =>
      Fn.blocks.foldl
        (fun s2 BB =>
          BB.instructions.foldl
            (fun s3 I => s3 ++ diagnoseUnreachable Fn I ++ diagnoseReturn Fn I)
            s2)
        s)
    sink

/-- Modelled from the spec: the canonical diagnostic sequence of a module
in module/function/block/instruction declaration order, with the
Unreachable Classifier's output before the Return Classifier's for each
instruction. Used as the order specification that the traversal driver is
proved to refine. -/
def moduleDiagnosticsSpec (M : SILModule) : List Diagnostic :=
  M.functions.flatMap fun Fn =>
    Fn.blocks.flatMap fun BB =>
      BB.instructions.flatMap fun I =>
        diagnoseUnreachable Fn I ++ diagnoseReturn Fn I

/-- The pass state seen from outside: the (const) module and the
diagnostic engine's record list. run(module) only appends to the sink. -/
structure PassState where
  module : SILModule
  sink : List Diagnostic
deriving DecidableEq, Repr

/-- One run of the pass as a state transformer: the module is traversed
read-only and the diagnostics are appended to the sink. -/
def runPass (st : PassState) : PassState :=
  { module := st.module
    sink := emitSILDataflowDiagnostics st.module st.sink }

/-! Helper lemmas shared by the claim theorems. -/

/-- Every record produced by diagnoseMissingReturn is a missing_return. -/
theorem mem_diagnoseMissingReturn {F : SILFunction} {I : SILInstruction}
    {d : Diagnostic} (h : d ∈ diagnoseMissingReturn F I) :
    d.isMissingReturn = true := by
  unfold diagnoseMissingReturn at h
  cases hf : getAsFuncDecl F.location with
  | none => rw [hf] at h; simp at h
  | some FD =>
    rw [hf] at h
    cases hv : FD.resultType.isVoid <;> simp [hv] at h
    cases hn : FD.funcType.noReturn <;> simp [hn] at h
    cases hl : I.loc with
    | none => rw [hl] at h; simp at h
    | some L => rw [hl] at h; simp at h; rw [h]; rfl

/-- Every record produced by diagnoseNonExhaustiveSwitch is a
non_exhaustive_switch. -/
theorem mem_diagnoseNonExhaustiveSwitch {I : SILInstruction} {d : Diagnostic}
    (h : d ∈ diagnoseNonExhaustiveSwitch I) :
    d.isNonExhaustiveSwitch = true := by
  unfold diagnoseNonExhaustiveSwitch at h
  cases hl : I.loc with
  | none => rw [hl] at h; simp at h
  | some L => rw [hl] at h; simp at h; rw [h]; rfl

/-- Every record produced by diagnoseReturn is a return_from_noreturn. -/
theorem mem_diagnoseReturn {F : SILFunction} {I : SILInstruction}
    {d : Diagnostic} (h : d ∈ diagnoseReturn F I) :
    d.isReturnFromNoReturn = true := by
  unfold diagnoseReturn at h
  cases hk : isReturnOrBranch I.kind <;> simp [hk] at h
  cases hf : getAsFuncDecl F.location with
  | none => rw [hf] at h; simp at h
  | some FD =>
    rw [hf] at h
    cases hn : FD.funcType.noReturn <;> simp [hn] at h
    cases hl : I.loc with
    | none => rw [hl] at h; simp at h
    | some L =>
      rw [hl] at h
      rcases List.mem_append.mp h with h1 | h1 <;>
        by_cases he : L.prov = Provenance.explicitReturn <;>
        by_cases hi : L.prov = Provenance.implicitReturn <;>
        simp [he, hi] at h1 <;> rw [h1] <;> rfl

/-- diagnoseUnreachable either forwards to one of the two emitters or
produces nothing. -/
theorem diagnoseUnreachable_cases (F : SILFunction) (I : SILInstruction) :
    diagnoseUnreachable F I = diagnoseMissingReturn F I ∨
    diagnoseUnreachable F I = diagnoseNonExhaustiveSwitch I ∨
    diagnoseUnreachable F I = [] := by
  cases hk : I.kind with
  | unreachable =>
    cases hl : I.loc with
    | none => right; right; simp [diagnoseUnreachable, hk, hl]
    | some L =>
      by_cases hp : L.prov.isAbstractFunctionDecl = true
      · left; simp [diagnoseUnreachable, hk, hl, hp]
      · by_cases hs : L.prov = Provenance.switchStmt
        · right; left
          simp [diagnoseUnreachable, hk, hl, hs,
            Provenance.isAbstractFunctionDecl]
        · right; right; simp [diagnoseUnreachable, hk, hl, hp, hs]
  | branch => right; right; simp [diagnoseUnreachable, hk]
  | ret => right; right; simp [diagnoseUnreachable, hk]
  | other tag => right; right; simp [diagnoseUnreachable, hk]

/-- Every record produced by diagnoseUnreachable is a missing_return or a
non_exhaustive_switch. -/
theorem mem_diagnoseUnreachable {F : SILFunction} {I : SILInstruction}
    {d : Diagnostic} (h : d ∈ diagnoseUnreachable F I) :
    d.isMissingReturn = true ∨ d.isNonExhaustiveSwitch = true := by
  rcases diagnoseUnreachable_cases F I with hc | hc | hc <;> rw [hc] at h
  · exact Or.inl (mem_diagnoseMissingReturn h)
  · exact Or.inr (mem_diagnoseNonExhaustiveSwitch h)
  · simp at h

/-- A return_from_noreturn record is neither of the other two kinds. -/
theorem isReturnFromNoReturn_shape {d : Diagnostic}
    (h : d.isReturnFromNoReturn = true) :
    d.isMissingReturn = false ∧ d.isNonExhaustiveSwitch = false := by
  cases d <;> simp_all [Diagnostic.isReturnFromNoReturn,
    Diagnostic.isMissingReturn, Diagnostic.isNonExhaustiveSwitch]

/-- If an instruction is a Branch or a Return, the unreachable classifier
ignores it. -/
theorem diagnoseUnreachable_of_branch_or_ret {F : SILFunction}
    {I : SILInstruction} (hk : isReturnOrBranch I.kind = true) :
    diagnoseUnreachable F I = [] := by
  cases h : I.kind <;> rw [h] at hk <;>
    simp [isReturnOrBranch] at hk <;> simp [diagnoseUnreachable, h]

/-! Concrete IR fixtures used by the witness theorems. -/

/-- A non-void result type used by the fixtures. -/
def tyInt : Ty := Ty.named 1

/-- A FuncDecl returning a non-void type, not noreturn. -/
def fdInt : FuncDecl :=
  { resultType := tyInt, funcType := { noReturn := false } }

/-- A FuncDecl returning a non-void type, marked noreturn. -/
def fdIntNR : FuncDecl :=
  { resultType := tyInt, funcType := { noReturn := true } }

/-- A FuncDecl returning void, not noreturn. -/
def fdVoid : FuncDecl :=
  { resultType := Ty.void, funcType := { noReturn := false } }

/-- A location spanning positions 0..9 tagging a function declaration. -/
def fnLoc (fd : Option FuncDecl) : SILLocation :=
  { startLoc := 0, endLoc := 9, prov := Provenance.funcDecl fd }

/-- A block-less function whose own location tags the given declaration. -/
def fnWith (fd : Option FuncDecl) : SILFunction :=
  { location := some (fnLoc fd), blocks := [] }

/-- A location spanning positions s..e with provenance p. -/
def spanAt (s e : SourceLoc) (p : Provenance) : SILLocation :=
  { startLoc := s, endLoc := e, prov := p }

/-- An instruction of the given kind located at s..e with provenance p. -/
def instAt (k : InstKind) (s e : SourceLoc) (p : Provenance) :
    SILInstruction :=
  { kind := k, loc := some (spanAt s e p) }

/-! Claim theorems. -/

/-- C1: an unreachable instruction with a location tagging a function
declaration, inside a function whose own location resolves to a FuncDecl
with a non-void result type and a function type that is not noreturn,
makes the pass emit exactly one missing_return carrying that declared
result type, placed at the end position of the instruction's location. -/
theorem c1_missing_return_emitted
    (F : SILFunction) (I : SILInstruction) (L : SILLocation) (FD : FuncDecl)
    (hkind : I.kind = InstKind.unreachable)
    (hloc : I.loc = some L)
    (hprov : L.prov.isAbstractFunctionDecl = true)
    (hfd : getAsFuncDecl F.location = some FD)
    (hvoid : FD.resultType.isVoid = false)
    (hnr : FD.funcType.noReturn = false) :
    diagnoseUnreachable F I ++ diagnoseReturn F I =
      [Diagnostic.missingReturn L.endLoc FD.resultType] := by
  simp [diagnoseUnreachable, diagnoseReturn, diagnoseMissingReturn,
    hkind, hloc, hprov, hfd, hvoid, hnr, isReturnOrBranch]

/-- C1 witness: a function returning a non-void type with a
function-tagged unreachable instruction spanning 2..7; the diagnostic
lands at the end position 7, not the start position 2. -/
theorem c1_missing_return_emitted_witness :
    diagnoseUnreachable (fnWith (some fdInt))
        (instAt InstKind.unreachable 2 7 (Provenance.funcDecl (some fdInt))) ++
      diagnoseReturn (fnWith (some fdInt))
        (instAt InstKind.unreachable 2 7 (Provenance.funcDecl (some fdInt))) =
      [Diagnostic.missingReturn 7 tyInt] :=
  c1_missing_return_emitted (fnWith (some fdInt))
    (instAt InstKind.unreachable 2 7 (Provenance.funcDecl (some fdInt)))
    (spanAt 2 7 (Provenance.funcDecl (some fdInt))) fdInt
    rfl rfl rfl rfl rfl rfl

/-- C2: a Branch or Return terminator inside a function whose resolved
FuncDecl has a noreturn function type emits exactly one
return_from_noreturn at the start position of its location when that
location is tagged as an explicit or implicit return, and emits nothing
when the location carries any other provenance. -/
theorem c2_return_from_noreturn
    (F : SILFunction) (I : SILInstruction) (L : SILLocation) (FD : FuncDecl)
    (hkind : isReturnOrBranch I.kind = true)
    (hfd : getAsFuncDecl F.location = some FD)
    (hnr : FD.funcType.noReturn = true)
    (hloc : I.loc = some L) :
    ((L.prov = Provenance.explicitReturn ∨
        L.prov = Provenance.implicitReturn) →
      diagnoseUnreachable F I ++ diagnoseReturn F I =
        [Diagnostic.returnFromNoReturn L.startLoc]) ∧
    (L.prov ≠ Provenance.explicitReturn →
      L.prov ≠ Provenance.implicitReturn →
      diagnoseUnreachable F I ++ diagnoseReturn F I = []) := by
  have hU := diagnoseUnreachable_of_branch_or_ret (F := F) hkind
  constructor
  · intro hp
    rcases hp with hp | hp <;>
      simp [hU, diagnoseReturn, hkind, hfd, hnr, hloc, hp]
  · intro h1 h2
    simp [hU, diagnoseReturn, hkind, hfd, hnr, hloc, h1, h2]

/-- C2 witness: inside a noreturn function, an explicit-return-tagged
Return terminator fires return_from_noreturn at its start position 4,
while a Branch with ordinary (other) provenance fires nothing. -/
theorem c2_return_from_noreturn_witness :
    (diagnoseUnreachable (fnWith (some fdIntNR))
        (instAt InstKind.ret 4 5 Provenance.explicitReturn) ++
      diagnoseReturn (fnWith (some fdIntNR))
        (instAt InstKind.ret 4 5 Provenance.explicitReturn) =
      [Diagnostic.returnFromNoReturn 4]) ∧
    (diagnoseUnreachable (fnWith (some fdIntNR))
        (instAt InstKind.branch 6 6 Provenance.other) ++
      diagnoseReturn (fnWith (some fdIntNR))
        (instAt InstKind.branch 6 6 Provenance.other) = []) := by
  constructor
  · exact (c2_return_from_noreturn (fnWith (some fdIntNR))
      (instAt InstKind.ret 4 5 Provenance.explicitReturn)
      (spanAt 4 5 Provenance.explicitReturn) fdIntNR
      rfl rfl rfl rfl).1 (Or.inl rfl)
  · exact (c2_return_from_noreturn (fnWith (some fdIntNR))
      (instAt InstKind.branch 6 6 Provenance.other)
      (spanAt 6 6 Provenance.other) fdIntNR
      rfl rfl rfl rfl).2 (by decide) (by decide)

/-- C3: in a function whose resolved FuncDecl has a void result type or a
noreturn function type, no instruction ever yields a missing_return. -/
theorem c3_void_or_noreturn_no_missing_return
    (F : SILFunction) (FD : FuncDecl)
    (hfd : getAsFuncDecl F.location = some FD)
    (h : FD.resultType.isVoid = true ∨ FD.funcType.noReturn = true) :
    ∀ I : SILInstruction,
      ∀ d ∈ diagnoseUnreachable F I ++ diagnoseReturn F I,
        d.isMissingReturn = false := by
  intro I d hd
  have hM : diagnoseMissingReturn F I = [] := by
    rcases h with h | h <;> simp [diagnoseMissingReturn, hfd, h]
  rcases List.mem_append.mp hd with hd | hd
  · rcases diagnoseUnreachable_cases F I with hc | hc | hc <;> rw [hc] at hd
    · rw [hM] at hd; simp at hd
    · cases hl : I.loc with
      | none => rw [diagnoseNonExhaustiveSwitch, hl] at hd; simp at hd
      | some L =>
        rw [diagnoseNonExhaustiveSwitch, hl] at hd
        simp at hd; rw [hd]; rfl
    · simp at hd
  · exact (isReturnFromNoReturn_shape (mem_diagnoseReturn hd)).1

/-- C3 witness: in a noreturn-typed function, the one diagnostic produced
for an explicit-return-tagged Return terminator is not a missing_return. -/
theorem c3_void_or_noreturn_no_missing_return_witness :
    (Diagnostic.returnFromNoReturn 4).isMissingReturn = false :=
  c3_void_or_noreturn_no_missing_return (fnWith (some fdIntNR)) fdIntNR
    rfl (Or.inr rfl)
    (instAt InstKind.ret 4 5 Provenance.explicitReturn)
    (Diagnostic.returnFromNoReturn 4) (by decide)

/-- C4: an unreachable instruction with a present location tagging a
switch statement yields exactly one non_exhaustive_switch at the end
position of that location, whatever the enclosing function's declaration,
result type or noreturn marker. -/
theorem c4_nonexhaustive_switch
    (F : SILFunction) (I : SILInstruction) (L : SILLocation)
    (hkind : I.kind = InstKind.unreachable)
    (hloc : I.loc = some L)
    (hprov : L.prov = Provenance.switchStmt) :
    diagnoseUnreachable F I ++ diagnoseReturn F I =
      [Diagnostic.nonExhaustiveSwitch L.endLoc] := by
  simp [diagnoseUnreachable, diagnoseReturn, diagnoseNonExhaustiveSwitch,
    hkind, hloc, hprov, isReturnOrBranch, Provenance.isAbstractFunctionDecl]

/-- C4 witness: a switch-tagged unreachable instruction spanning 3..8
inside a void-returning function still fires non_exhaustive_switch, at
the end position 8. -/
theorem c4_nonexhaustive_switch_witness :
    diagnoseUnreachable (fnWith (some fdVoid))
        (instAt InstKind.unreachable 3 8 Provenance.switchStmt) ++
      diagnoseReturn (fnWith (some fdVoid))
        (instAt InstKind.unreachable 3 8 Provenance.switchStmt) =
      [Diagnostic.nonExhaustiveSwitch 8] :=
  c4_nonexhaustive_switch (fnWith (some fdVoid))
    (instAt InstKind.unreachable 3 8 Provenance.switchStmt)
    (spanAt 3 8 Provenance.switchStmt) rfl rfl rfl

/-- C5: an unreachable instruction with an absent location yields no
diagnostic at all. -/
theorem c5_absent_location_skipped
    (F : SILFunction) (I : SILInstruction)
    (hkind : I.kind = InstKind.unreachable)
    (hloc : I.loc = none) :
    diagnoseUnreachable F I ++ diagnoseReturn F I = [] := by
  simp [diagnoseUnreachable, diagnoseReturn, hkind, hloc, isReturnOrBranch]

/-- C5 witness: a location-less unreachable instruction in an ordinary
function produces nothing. -/
theorem c5_absent_location_skipped_witness :
    diagnoseUnreachable (fnWith (some fdInt))
        { kind := InstKind.unreachable, loc := none } ++
      diagnoseReturn (fnWith (some fdInt))
        { kind := InstKind.unreachable, loc := none } = [] :=
  c5_absent_location_skipped (fnWith (some fdInt))
    { kind := InstKind.unreachable, loc := none } rfl rfl

/-- C6: when the enclosing function's own location does not resolve to a
FuncDecl (absent location, non-declaration provenance, or an
AbstractFunctionDecl that is not a FuncDecl - the closure cases), no
instruction of that function ever yields a missing_return or a
return_from_noreturn. -/
theorem c6_unresolvable_decl_inert
    (F : SILFunction)
    (hfd : getAsFuncDecl F.location = none) :
    ∀ I : SILInstruction,
      ∀ d ∈ diagnoseUnreachable F I ++ diagnoseReturn F I,
        d.isMissingReturn = false ∧ d.isReturnFromNoReturn = false := by
  intro I d hd
  have hM : diagnoseMissingReturn F I = [] := by
    simp [diagnoseMissingReturn, hfd]
  have hR : diagnoseReturn F I = [] := by
    simp [diagnoseReturn, hfd]
  rcases List.mem_append.mp hd with hd | hd
  · rcases diagnoseUnreachable_cases F I with hc | hc | hc <;> rw [hc] at hd
    · rw [hM] at hd; simp at hd
    · have hs := mem_diagnoseNonExhaustiveSwitch hd
      cases d <;> simp_all [Diagnostic.isMissingReturn,
        Diagnostic.isReturnFromNoReturn, Diagnostic.isNonExhaustiveSwitch]
    · simp at hd
  · rw [hR] at hd; simp at hd

/-- C6 witness: in a function whose location tags a declaration that is
not a FuncDecl, the one diagnostic a switch-tagged unreachable still
produces is neither a missing_return nor a return_from_noreturn. -/
theorem c6_unresolvable_decl_inert_witness :
    (Diagnostic.nonExhaustiveSwitch 8).isMissingReturn = false ∧
      (Diagnostic.nonExhaustiveSwitch 8).isReturnFromNoReturn = false :=
  c6_unresolvable_decl_inert (fnWith none) rfl
    (instAt InstKind.unreachable 3 8 Provenance.switchStmt)
    (Diagnostic.nonExhaustiveSwitch 8) (by decide)

/-- Folding an emit step over a list is appending the concatenation of
the per-element output, in list order. Shared by the traversal claims. -/
theorem foldl_emit {α β : Type} (g : List β → α → List β) (f : α → List β)
    (h : ∀ s x, g s x = s ++ f x) :
    ∀ (l : List α) (init : List β), l.foldl g init = init ++ l.flatMap f := by
  intro l
  induction l with
  | nil => intro init; simp
  | cons a t ih =>
    intro init
    rw [List.foldl_cons, h, ih, List.flatMap_cons, List.append_assoc]

/-- The traversal driver appends exactly the canonical-order diagnostic
sequence to whatever the sink already holds. Shared by C7 and C8. -/
theorem emit_eq_spec (M : SILModule) (sink : List Diagnostic) :
    emitSILDataflowDiagnostics M sink = sink ++ moduleDiagnosticsSpec M := by
  unfold emitSILDataflowDiagnostics moduleDiagnosticsSpec
  apply foldl_emit
  intro s Fn
  apply foldl_emit
  intro s2 BB
  apply foldl_emit
  intro s3 I
  rw [List.append_assoc]

/-- C7: the pass's nested loops produce the diagnostics in
module/function/block/instruction declaration order, with the unreachable
classifier's output preceding the return classifier's for each
instruction, appended after the sink's prior contents. -/
theorem c7_traversal_order (M : SILModule) (sink : List Diagnostic) :
    emitSILDataflowDiagnostics M sink = sink ++ moduleDiagnosticsSpec M :=
  emit_eq_spec M sink

/-- C8: a run of the pass leaves the module component of the state
untouched; its only effect is appending the module's diagnostic sequence
to the sink. -/
theorem c8_pass_pure (st : PassState) :
    (runPass st).module = st.module ∧
    (runPass st).sink = st.sink ++ moduleDiagnosticsSpec st.module :=
  ⟨rfl, emit_eq_spec st.module st.sink⟩

/-- C9: per instruction kind the diagnostic classes are exclusive: an
unreachable instruction only ever yields missing_return or
non_exhaustive_switch, a Branch or Return only ever yields
return_from_noreturn, and every other kind yields nothing. -/
theorem c9_kind_exclusivity (F : SILFunction) (I : SILInstruction) :
    (I.kind = InstKind.unreachable →
      ∀ d ∈ diagnoseUnreachable F I ++ diagnoseReturn F I,
        d.isMissingReturn = true ∨ d.isNonExhaustiveSwitch = true) ∧
    (isReturnOrBranch I.kind = true →
      ∀ d ∈ diagnoseUnreachable F I ++ diagnoseReturn F I,
        d.isReturnFromNoReturn = true) ∧
    (I.kind ≠ InstKind.unreachable → isReturnOrBranch I.kind = false →
      diagnoseUnreachable F I ++ diagnoseReturn F I = []) := by
  refine ⟨?_, ?_, ?_⟩
  · intro hk d hd
    have hR : diagnoseReturn F I = [] := by
      simp [diagnoseReturn, hk, isReturnOrBranch]
    rw [hR, List.append_nil] at hd
    exact mem_diagnoseUnreachable hd
  · intro hk d hd
    rw [diagnoseUnreachable_of_branch_or_ret hk, List.nil_append] at hd
    exact mem_diagnoseReturn hd
  · intro h1 h2
    have hU : diagnoseUnreachable F I = [] := by
      cases hI : I.kind with
      | unreachable => exact absurd hI h1
      | branch => simp [diagnoseUnreachable, hI]
      | ret => simp [diagnoseUnreachable, hI]
      | other tag => simp [diagnoseUnreachable, hI]
    have hR : diagnoseReturn F I = [] := by
      simp [diagnoseReturn, h2]
    rw [hU, hR]; rfl

/-- C9 witness: a missing_return produced by an unreachable instruction
is of an unreachable-only class, a return_from_noreturn produced by a
Return is of the return-only class, and a non-terminator instruction
produces nothing. -/
theorem c9_kind_exclusivity_witness :
    ((Diagnostic.missingReturn 7 tyInt).isMissingReturn = true ∨
      (Diagnostic.missingReturn 7 tyInt).isNonExhaustiveSwitch = true) ∧
    (Diagnostic.returnFromNoReturn 4).isReturnFromNoReturn = true ∧
    (diagnoseUnreachable (fnWith (some fdInt))
        (instAt (InstKind.other 0) 1 2 Provenance.other) ++
      diagnoseReturn (fnWith (some fdInt))
        (instAt (InstKind.other 0) 1 2 Provenance.other) = []) := by
  refine ⟨?_, ?_, ?_⟩
  · exact (c9_kind_exclusivity (fnWith (some fdInt))
      (instAt InstKind.unreachable 2 7 (Provenance.funcDecl (some fdInt)))).1
      rfl (Diagnostic.missingReturn 7 tyInt) (by decide)
  · exact (c9_kind_exclusivity (fnWith (some fdIntNR))
      (instAt InstKind.ret 4 5 Provenance.explicitReturn)).2.1
      rfl (Diagnostic.returnFromNoReturn 4) (by decide)
  · exact (c9_kind_exclusivity (fnWith (some fdInt))
      (instAt (InstKind.other 0) 1 2 Provenance.other)).2.2
      (by decide) rfl

/-- C10: the missing-return path dispatches on the instruction's
location, but resolves suppression and the reported result type from the
declaration of the enclosing function's own location: an unresolvable
enclosing declaration suppresses silently, a resolvable one governs both
the suppression tests and the reported type, whatever declaration the
instruction's own location tags. -/
theorem c10_enclosing_function_governs
    (F : SILFunction) (I : SILInstruction) (L : SILLocation)
    (o : Option FuncDecl)
    (hkind : I.kind = InstKind.unreachable)
    (hloc : I.loc = some L)
    (hprov : L.prov = Provenance.funcDecl o) :
    (getAsFuncDecl F.location = none →
      diagnoseUnreachable F I ++ diagnoseReturn F I = []) ∧
    (∀ FD : FuncDecl, getAsFuncDecl F.location = some FD →
      (FD.resultType.isVoid = true ∨ FD.funcType.noReturn = true) →
      diagnoseUnreachable F I ++ diagnoseReturn F I = []) ∧
    (∀ FD : FuncDecl, getAsFuncDecl F.location = some FD →
      FD.resultType.isVoid = false → FD.funcType.noReturn = false →
      diagnoseUnreachable F I ++ diagnoseReturn F I =
        [Diagnostic.missingReturn L.endLoc FD.resultType]) := by
  have hR : diagnoseReturn F I = [] := by
    simp [diagnoseReturn, hkind, isReturnOrBranch]
  refine ⟨?_, ?_, ?_⟩
  · intro hf
    simp [diagnoseUnreachable, diagnoseMissingReturn, hkind, hloc, hprov,
      Provenance.isAbstractFunctionDecl, hf, hR]
  · intro FD hf h
    rcases h with h | h <;>
      simp [diagnoseUnreachable, diagnoseMissingReturn, hkind, hloc, hprov,
        Provenance.isAbstractFunctionDecl, hf, h, hR]
  · intro FD hf h1 h2
    simp [diagnoseUnreachable, diagnoseMissingReturn, hkind, hloc, hprov,
      Provenance.isAbstractFunctionDecl, hf, h1, h2, hR]

/-- C10 witness: with the instruction's span 2..7 tagged by one
declaration and the enclosing function tagged by another, the function's
declaration decides: no declaration means silence, a void-returning
function declaration suppresses even though the instruction tags a
non-void one, and a non-void function declaration emits its own result
type even though the instruction tags a void one. -/
theorem c10_enclosing_function_governs_witness :
    (diagnoseUnreachable (fnWith none)
        (instAt InstKind.unreachable 2 7
          (Provenance.funcDecl (some fdInt))) ++
      diagnoseReturn (fnWith none)
        (instAt InstKind.unreachable 2 7
          (Provenance.funcDecl (some fdInt))) = []) ∧
    (diagnoseUnreachable (fnWith (some fdVoid))
        (instAt InstKind.unreachable 2 7
          (Provenance.funcDecl (some fdInt))) ++
      diagnoseReturn (fnWith (some fdVoid))
        (instAt InstKind.unreachable 2 7
          (Provenance.funcDecl (some fdInt))) = []) ∧
    (diagnoseUnreachable (fnWith (some fdInt))
        (instAt InstKind.unreachable 2 7
          (Provenance.funcDecl (some fdVoid))) ++
      diagnoseReturn (fnWith (some fdInt))
        (instAt InstKind.unreachable 2 7
          (Provenance.funcDecl (some fdVoid))) =
      [Diagnostic.missingReturn 7 tyInt]) := by
  refine ⟨?_, ?_, ?_⟩
  · exact (c10_enclosing_function_governs (fnWith none)
      (instAt InstKind.unreachable 2 7 (Provenance.funcDecl (some fdInt)))
      (spanAt 2 7 (Provenance.funcDecl (some fdInt))) (some fdInt)
      rfl rfl rfl).1 rfl
  · exact (c10_enclosing_function_governs (fnWith (some fdVoid))
      (instAt InstKind.unreachable 2 7 (Provenance.funcDecl (some fdInt)))
      (spanAt 2 7 (Provenance.funcDecl (some fdInt))) (some fdInt)
      rfl rfl rfl).2.1 fdVoid rfl (Or.inl rfl)
  · exact (c10_enclosing_function_governs (fnWith (some fdInt))
      (instAt InstKind.unreachable 2 7 (Provenance.funcDecl (some fdVoid)))
      (spanAt 2 7 (Provenance.funcDecl (some fdVoid))) (some fdVoid)
      rfl rfl rfl).2.2 fdInt rfl rfl rfl

end DataflowDiagnostics
